import Mathlib

/-!
# Verification of the SilksongRL training-session orchestrator

Shallow embedding of the python-client sources:
* `sb3_ppo_override.py` — the `CustomPPO` rollout orchestrator
  (`store_transition`, `finish_rollout_and_train`, constructor);
* `socket_server_async.py` — the message codec (`send_message`,
  `receive_message`), the dispatcher (`process_message`) and the
  connection-handler loop (`handle_client`).

Rewards are modelled over `Int`: none of the verified properties depends on
the numeric type of a reward, only on counter arithmetic, list lengths and
resets to zero.  External collaborators (the SB3 policy engine, the
filesystem behind `self.save`) do not touch any of the modelled fields;
calls to them are modelled as no-ops, except that the `self.save(...)`
call site appends to an explicit event log so that checkpoint emission is
observable.
-/

namespace SilksongRL

/-- State of a `CustomPPO` instance (`sb3_ppo_override.py`), restricted to
the fields the orchestrator logic reads or writes.
* `lastDone` — `self.last_done`
* `timesTrained` — `self.times_trained`
* `saveFreq` — `self.save_freq` (checkpoint interval, in completed episodes)
* `nSteps` — `self.n_steps` (rollout horizon)
* `episodesCompleted` — `self.episodes_completed`
* `episodeRewards` — `self.episode_rewards`
* `currentEpisodeReward` — `self.current_episode_reward`
* `bufferPos` — `self.rollout_buffer.pos` (SB3 `RolloutBuffer`: `add`
  increments `pos`, `reset` zeroes it)
* `episodeStartLog` — instrumentation: the `episode_start` flags passed to
  `self.rollout_buffer.add`, in call order, across buffer resets
* `checkpointLog` — instrumentation: the value of `episodes_completed` at
  each `self.save(save_path)` call, in order. -/
structure PPOState where
  lastDone : Bool
  timesTrained : Nat
  saveFreq : Nat
  nSteps : Nat
  episodesCompleted : Nat
  episodeRewards : List Int
  currentEpisodeReward : Int
  bufferPos : Nat
  episodeStartLog : List Bool
  checkpointLog : List Nat
deriving Repr, DecidableEq

/-- `CustomPPO.__init__` (lines 16–44).  `episodeRewardsArg` is the value of
the `episode_rewards` parameter.  In Python its default `[]` is a single
list object created when the function is defined; a construction that omits
the argument binds `self.episode_rewards` to that shared object, so the
caller of this model passes the default object's current contents there.
The constructor sets `last_done = False`, `current_episode_reward = 0.0`
and calls `self.rollout_buffer.reset()`. -/
def customPPOInit (saveFreq : Nat) (timesTrained : Nat)
    (episodesCompleted : Nat) (episodeRewardsArg : List Int)
    (nSteps : Nat) : PPOState :=
  { lastDone := false
    timesTrained := timesTrained
    saveFreq := saveFreq
    nSteps := nSteps
    episodesCompleted := episodesCompleted
    episodeRewards := episodeRewardsArg
    currentEpisodeReward := 0
    bufferPos := 0
    episodeStartLog := []
    checkpointLog := [] }

/-- A fresh `CustomPPO` built while the module-level default list is still
empty: counters at their defaults, rollout horizon `H`, checkpoint
interval `k`. -/
def freshPPO (H k : Nat) : PPOState :=
  customPPOInit k 0 0 [] H

/-- `CustomPPO.finish_rollout_and_train` (lines 198–214):
`compute_returns_and_advantage` and `self.train()` touch none of the
modelled fields; then the buffer is reset, `times_trained` is incremented,
`episodes_completed` is incremented, the running episode reward is appended
to the history and reset to `0`.  No checkpoint condition is evaluated
here. -/
def finishRolloutAndTrain (s : PPOState) : PPOState :=
  { s with
    bufferPos := 0
    timesTrained := s.timesTrained + 1
    episodesCompleted := s.episodesCompleted + 1
    episodeRewards := s.episodeRewards ++ [s.currentEpisodeReward]
    currentEpisodeReward := 0 }

/-- `CustomPPO.store_transition` (lines 142–195), keeping the modelled
fields:
1. `self.current_episode_reward += reward`;
2. if `done`: increment `episodes_completed`, append the running reward to
   `episode_rewards`, reset it to `0`, and — `if self.save_freq and
   self.episodes_completed % self.save_freq == 0` — save a checkpoint
   (logged in `checkpointLog`);
3. `self.rollout_buffer.add(..., episode_start=self.last_done, ...)`
   (logged in `episodeStartLog`; `pos` increments);
4. `self.last_done = done`;
5. `if self.rollout_buffer.pos >= self.n_steps:
   self.finish_rollout_and_train(next_obs)`. -/
def storeTransition (s : PPOState) (reward : Int) (done : Bool) : PPOState :=
  let s1 : PPOState :=
    { s with currentEpisodeReward := s.currentEpisodeReward + reward }
  let s2 : PPOState :=
    if done then
      let sa : PPOState := { s1 with
        episodesCompleted := s1.episodesCompleted + 1
        episodeRewards := s1.episodeRewards ++ [s1.currentEpisodeReward]
        currentEpisodeReward := 0 }
      if sa.saveFreq ≠ 0 ∧ sa.episodesCompleted % sa.saveFreq = 0 then
        { sa with checkpointLog := sa.checkpointLog ++ [sa.episodesCompleted] }
      else sa
    else s1
  let s3 : PPOState := { s2 with
    bufferPos := s2.bufferPos + 1
    episodeStartLog := s2.episodeStartLog ++ [s2.lastDone] }
  let s4 : PPOState := { s3 with lastDone := done }
  if s4.nSteps ≤ s4.bufferPos then finishRolloutAndTrain s4 else s4

/-- One `(reward, done)` argument pair of a `store_transition` call. -/
abbrev Call := Int × Bool

/-- Run a sequence of `store_transition` calls from state `s`. -/
def runCalls (s : PPOState) (calls : List Call) : PPOState :=
  calls.foldl (fun t c => storeTransition t c.1 c.2) s

/-- `n` consecutive `store_transition` calls with `done=false` from a fresh
session with horizon `H` and checkpoint interval `k`. -/
def runFalse (H k n : Nat) : PPOState :=
  runCalls (freshPPO H k) (List.replicate n ((0 : Int), false))

/-! ### Per-call characterizations of `store_transition` -/

theorem storeTransition_lastDone (s : PPOState) (r : Int) (d : Bool) :
    (storeTransition s r d).lastDone = d := by
  unfold storeTransition finishRolloutAndTrain
  dsimp only
  split_ifs <;> rfl

theorem storeTransition_nSteps (s : PPOState) (r : Int) (d : Bool) :
    (storeTransition s r d).nSteps = s.nSteps := by
  unfold storeTransition finishRolloutAndTrain
  dsimp only
  split_ifs <;> rfl

theorem storeTransition_saveFreq (s : PPOState) (r : Int) (d : Bool) :
    (storeTransition s r d).saveFreq = s.saveFreq := by
  unfold storeTransition finishRolloutAndTrain
  dsimp only
  split_ifs <;> rfl

theorem storeTransition_bufferPos (s : PPOState) (r : Int) (d : Bool) :
    (storeTransition s r d).bufferPos =
      if s.nSteps ≤ s.bufferPos + 1 then 0 else s.bufferPos + 1 := by
  unfold storeTransition finishRolloutAndTrain
  dsimp only
  split_ifs <;> rfl

theorem storeTransition_timesTrained (s : PPOState) (r : Int) (d : Bool) :
    (storeTransition s r d).timesTrained =
      if s.nSteps ≤ s.bufferPos + 1 then s.timesTrained + 1
      else s.timesTrained := by
  unfold storeTransition finishRolloutAndTrain
  dsimp only
  split_ifs <;> rfl

theorem storeTransition_episodeStartLog (s : PPOState) (r : Int) (d : Bool) :
    (storeTransition s r d).episodeStartLog =
      s.episodeStartLog ++ [s.lastDone] := by
  unfold storeTransition finishRolloutAndTrain
  dsimp only
  split_ifs <;> rfl

theorem storeTransition_checkpointLog (s : PPOState) (r : Int) (d : Bool) :
    (storeTransition s r d).checkpointLog =
      s.checkpointLog ++
        (if d = true ∧ s.saveFreq ≠ 0 ∧
            (s.episodesCompleted + 1) % s.saveFreq = 0
         then [s.episodesCompleted + 1] else []) := by
  unfold storeTransition finishRolloutAndTrain
  dsimp only
  cases d <;> split_ifs <;> simp_all

theorem storeTransition_rewardsLen (s : PPOState) (r : Int) (d : Bool) :
    (storeTransition s r d).episodeRewards.length =
      s.episodeRewards.length + (if d then 1 else 0) +
        (if s.nSteps ≤ s.bufferPos + 1 then 1 else 0) := by
  unfold storeTransition finishRolloutAndTrain
  dsimp only
  cases d <;> split_ifs <;> simp_all

theorem storeTransition_currentEpisodeReward (s : PPOState) (r : Int) (d : Bool) :
    (storeTransition s r d).currentEpisodeReward =
      if d = true ∨ s.nSteps ≤ s.bufferPos + 1 then 0
      else s.currentEpisodeReward + r := by
  unfold storeTransition finishRolloutAndTrain
  dsimp only
  cases d <;> split_ifs <;> simp_all
  omega

/-! ### Run-level invariants -/

theorem runCalls_nSteps (s : PPOState) (calls : List Call) :
    (runCalls s calls).nSteps = s.nSteps := by
  induction calls generalizing s with
  | nil => rfl
  | cons c cs ih =>
    simpa [runCalls, List.foldl_cons, storeTransition_nSteps]
      using ih (storeTransition s c.1 c.2) |>.trans (storeTransition_nSteps s c.1 c.2)

/-- Occupancy and update count after `n` `done=false` calls: `pos = n % H`,
`times_trained = n / H`. -/
theorem runFalse_inv (H k : Nat) (hH : 1 ≤ H) (n : Nat) :
    (runFalse H k n).bufferPos = n % H ∧
    (runFalse H k n).timesTrained = n / H := by
  induction n with
  | zero => exact ⟨by simp [runFalse, runCalls, freshPPO, customPPOInit],
      by simp [runFalse, runCalls, freshPPO, customPPOInit]⟩
  | succ n ih =>
    have hstep : runFalse H k (n + 1)
        = storeTransition (runFalse H k n) 0 false := by
      simp [runFalse, runCalls, List.replicate_succ']
    have hn : (runFalse H k n).nSteps = H := by
      simpa [freshPPO, customPPOInit] using
        runCalls_nSteps (freshPPO H k) (List.replicate n ((0 : Int), false))
    have hr := n.mod_lt (show 0 < H from hH)
    have hdm := Nat.div_add_mod n H
    rcases Nat.lt_or_ge (n % H + 1) H with hlt | hge
    · have hnot : ¬ H ≤ n % H + 1 := by omega
      have heq : n + 1 = (n % H + 1) + H * (n / H) := by omega
      constructor
      · rw [hstep, storeTransition_bufferPos, hn, ih.1, if_neg hnot, heq,
          Nat.add_mul_mod_self_left, Nat.mod_eq_of_lt hlt]
      · rw [hstep, storeTransition_timesTrained, hn, ih.1, if_neg hnot, heq,
          Nat.add_mul_div_left _ _ (show 0 < H from hH),
          Nat.div_eq_of_lt hlt, Nat.zero_add, ih.2]
    · have hEq : n % H + 1 = H := by omega
      have hyes : H ≤ n % H + 1 := hge
      have heq : n + 1 = H * (n / H + 1) := by
        rw [Nat.mul_add, Nat.mul_one]; omega
      constructor
      · rw [hstep, storeTransition_bufferPos, hn, ih.1, if_pos hyes, heq,
          Nat.mul_mod_right]
      · rw [hstep, storeTransition_timesTrained, hn, ih.1, if_pos hyes, ih.2,
          heq, Nat.mul_div_cancel_left _ (show 0 < H from hH)]

/-- The episode-start flags recorded by a run of `store_transition` calls:
the flag of the j-th call is the `done` of the (j-1)-th call, seeded with
the state's `last_done`. -/
theorem runCalls_episodeStartLog (calls : List Call) (s : PPOState) :
    (runCalls s calls).episodeStartLog =
      s.episodeStartLog ++
        (s.lastDone :: calls.map Prod.snd).take calls.length := by
  induction calls generalizing s with
  | nil => simp [runCalls]
  | cons c cs ih =>
    have h1 : runCalls s (c :: cs) = runCalls (storeTransition s c.1 c.2) cs := by
      simp [runCalls]
    rw [h1, ih, storeTransition_episodeStartLog, storeTransition_lastDone]
    simp [List.append_assoc]

/-- Episode-reward-history length bookkeeping over a run: each `done=true`
call and each training flush appends exactly one entry. -/
theorem runCalls_rewardsLen (calls : List Call) (s : PPOState) :
    (runCalls s calls).episodeRewards.length + s.timesTrained =
      s.episodeRewards.length + (calls.map Prod.snd).count true +
        (runCalls s calls).timesTrained := by
  induction calls generalizing s with
  | nil => simp [runCalls]
  | cons c cs ih =>
    have h1 : runCalls s (c :: cs) = runCalls (storeTransition s c.1 c.2) cs := by
      simp [runCalls]
    have hlen := storeTransition_rewardsLen s c.1 c.2
    have htt := storeTransition_timesTrained s c.1 c.2
    have hih := ih (storeTransition s c.1 c.2)
    rw [h1]
    cases h : c.2 <;>
      simp [h, List.count_cons] at hlen htt hih ⊢ <;>
      split_ifs at hlen htt <;> omega

/-! ### Claim theorems for the rollout orchestrator -/

/-- **C1.** For every sequence of `N` `store_transition` calls with
`done=false` after initialization with rollout horizon `H ≥ 1`: the
`RolloutBuffer` occupancy equals `N` for all `N < H` with no training
update; at `N = H` exactly one training update has been performed within
that same call and occupancy is back to `0`; and occupancy never exceeds
`H` after any such run. -/
theorem C1_rollout_occupancy (H k N : Nat) (hH : 1 ≤ H) :
    (N < H → (runFalse H k N).bufferPos = N ∧
      (runFalse H k N).timesTrained = 0) ∧
    ((runFalse H k H).bufferPos = 0 ∧ (runFalse H k H).timesTrained = 1) ∧
    (runFalse H k N).bufferPos ≤ H := by
  obtain ⟨hp, ht⟩ := runFalse_inv H k hH N
  obtain ⟨hpH, htH⟩ := runFalse_inv H k hH H
  refine ⟨fun hN => ⟨?_, ?_⟩, ⟨?_, ?_⟩, ?_⟩
  · rw [hp, Nat.mod_eq_of_lt hN]
  · rw [ht, Nat.div_eq_of_lt hN]
  · rw [hpH, Nat.mod_self]
  · rw [htH, Nat.div_self (show 0 < H from hH)]
  · rw [hp]; exact le_of_lt (Nat.mod_lt _ (show 0 < H from hH))

theorem C1_rollout_occupancy_witness :
    (2 < 3 → (runFalse 3 2 2).bufferPos = 2 ∧
      (runFalse 3 2 2).timesTrained = 0) ∧
    ((runFalse 3 2 3).bufferPos = 0 ∧ (runFalse 3 2 3).timesTrained = 1) ∧
    (runFalse 3 2 2).bufferPos ≤ 3 :=
  C1_rollout_occupancy 3 2 2 (by decide)

/-- **C2 (counterexample).** The claim says a checkpoint event is emitted
whenever episodes-completed becomes a positive multiple of the interval,
*including* episodes completed by a rollout-boundary flush.  On the spec's
own scenario (horizon 3, interval 2, dones `[false, false, true]`) the
flush inside the third call brings `episodes_completed` to `2`, a positive
multiple of `2`, yet no checkpoint is saved: `finish_rollout_and_train`
never evaluates the checkpoint condition. -/
theorem C2_checkpoint_counterexample :
    (runCalls (freshPPO 3 2) [(1, false), (2, false), (3, true)]).episodesCompleted
        = 2 ∧
    2 % 2 = 0 ∧
    (runCalls (freshPPO 3 2) [(1, false), (2, false), (3, true)]).checkpointLog
        = [] := by
  refine ⟨by decide, by decide, by decide⟩

/-- **C2 (amended).** A checkpoint event is emitted during a
`store_transition` call exactly when that call's `done=true` branch makes
the new episodes-completed count a (positive) multiple of a nonzero
checkpoint interval; episodes completed by a rollout-boundary flush never
emit a checkpoint (`finish_rollout_and_train` leaves the checkpoint log
unchanged), and no event is ever emitted when the interval is `0`. -/
theorem C2_checkpoint_exactly_on_done (s : PPOState) (r : Int) (d : Bool) :
    (storeTransition s r d).checkpointLog =
      s.checkpointLog ++
        (if d = true ∧ s.saveFreq ≠ 0 ∧
            (s.episodesCompleted + 1) % s.saveFreq = 0
         then [s.episodesCompleted + 1] else []) ∧
    (finishRolloutAndTrain s).checkpointLog = s.checkpointLog :=
  ⟨storeTransition_checkpointLog s r d, rfl⟩

/-- **C5.** After any run from a fresh session, the episode-reward history
length equals the number of `done=true` calls plus the number of
rollout-boundary training flushes (`times_trained`); and whenever a
`store_transition` call grew the history, the current-episode cumulative
reward ends that call reset to `0`. -/
theorem C5_reward_history (H k : Nat) (calls : List Call)
    (s : PPOState) (r : Int) (d : Bool) :
    ((runCalls (freshPPO H k) calls).episodeRewards.length =
      (calls.map Prod.snd).count true +
        (runCalls (freshPPO H k) calls).timesTrained) ∧
    ((storeTransition s r d).episodeRewards.length ≠ s.episodeRewards.length →
      (storeTransition s r d).currentEpisodeReward = 0) := by
  constructor
  · have h := runCalls_rewardsLen calls (freshPPO H k)
    simpa [freshPPO, customPPOInit] using h
  · intro hne
    have hlen := storeTransition_rewardsLen s r d
    have hcur := storeTransition_currentEpisodeReward s r d
    rw [hcur]
    split_ifs with h
    · rfl
    · exfalso
      push_neg at h
      rw [hlen] at hne
      have hnt : ¬ s.nSteps ≤ s.bufferPos + 1 := by omega
      simp [h.1, hnt] at hne

theorem C5_reward_history_witness :
    ((runCalls (freshPPO 2 0) [(1, true)]).episodeRewards.length =
      ([(((1 : Int), true))].map Prod.snd).count true +
        (runCalls (freshPPO 2 0) [(1, true)]).timesTrained) ∧
    ((storeTransition (freshPPO 2 0) 5 true).episodeRewards.length ≠
        (freshPPO 2 0).episodeRewards.length →
      (storeTransition (freshPPO 2 0) 5 true).currentEpisodeReward = 0) :=
  C5_reward_history 2 0 [(1, true)] (freshPPO 2 0) 5 true

/-- **C6.** The episode-start flag recorded with the `j`-th stored
transition (counting all `store_transition` calls from a fresh session)
equals the `done` argument of the `(j-1)`-th call, and is `false` for the
first call. -/
theorem C6_episode_start_delayed (H k : Nat) (calls : List Call)
    (j : Nat) (hj : j < calls.length) :
    (runCalls (freshPPO H k) calls).episodeStartLog.getD j false =
      if j = 0 then false else (calls.getD (j - 1) (0, false)).2 := by
  have hlog := runCalls_episodeStartLog calls (freshPPO H k)
  have hfresh : (freshPPO H k).episodeStartLog = [] := rfl
  have hld : (freshPPO H k).lastDone = false := rfl
  rw [hlog, hfresh, hld, List.nil_append]
  cases j with
  | zero =>
    rw [List.getD_eq_getElem?_getD, List.getElem?_take, if_pos hj]
    simp
  | succ i =>
    have hi : i < calls.length := by omega
    simp only [List.getD_eq_getElem?_getD, List.getElem?_take, if_pos hj,
      List.getElem?_cons_succ, List.getElem?_map,
      List.getElem?_eq_getElem hi]
    simp [List.getElem?_eq_getElem hi]

theorem C6_episode_start_delayed_witness :
    1 < ([((1 : Int), true), ((2 : Int), false)] : List Call).length ∧
    (runCalls (freshPPO 5 0)
        [((1 : Int), true), ((2 : Int), false)]).episodeStartLog.getD 1 false =
      if 1 = 0 then false
      else (([((1 : Int), true), ((2 : Int), false)] : List Call).getD 0
        (0, false)).2 :=
  ⟨by decide, C6_episode_start_delayed 5 0 [(1, true), (2, false)] 1 (by decide)⟩

/-- **C10.** A rollout-boundary training flush does not update `last_done`:
when a `store_transition` call with `done=d` triggers training (the buffer
reaches the horizon inside that call), exactly one update is performed, the
resulting `last_done` is still `d`, and the episode-start flag recorded by
the next stored transition is `d` — the forced episode boundary is never
marked as an episode start in the next rollout buffer. -/
theorem C10_flush_keeps_lastDone (s : PPOState) (r : Int) (d : Bool)
    (r2 : Int) (d2 : Bool) (htrig : s.nSteps ≤ s.bufferPos + 1) :
    (storeTransition s r d).timesTrained = s.timesTrained + 1 ∧
    (storeTransition s r d).lastDone = d ∧
    (storeTransition (storeTransition s r d) r2 d2).episodeStartLog.getLast?
      = some d := by
  refine ⟨?_, storeTransition_lastDone s r d, ?_⟩
  · rw [storeTransition_timesTrained, if_pos htrig]
  · rw [storeTransition_episodeStartLog, storeTransition_lastDone,
      List.getLast?_concat]

theorem C10_flush_keeps_lastDone_witness :
    (freshPPO 1 0).nSteps ≤ (freshPPO 1 0).bufferPos + 1 ∧
    ((storeTransition (freshPPO 1 0) 0 false).timesTrained =
        (freshPPO 1 0).timesTrained + 1 ∧
      (storeTransition (freshPPO 1 0) 0 false).lastDone = false ∧
      (storeTransition (storeTransition (freshPPO 1 0) 0 false)
          0 true).episodeStartLog.getLast? = some false) :=
  ⟨by decide, C10_flush_keeps_lastDone (freshPPO 1 0) 0 false 0 true (by decide)⟩

/-- Re-construction of `CustomPPO` omitting the `episode_rewards` argument.
In Python the default value `[]` of that parameter is one list object,
created when `__init__` is defined and shared by every call that omits the
argument; `self.episode_rewards = episode_rewards` binds the same object
and `append` mutates it.  Hence, when the previous session `s` was itself
built from the default object, a later construction that omits the
argument receives a list whose contents are `s.episodeRewards`. -/
def reinitSharedDefault (s : PPOState) (H k : Nat) : PPOState :=
  customPPOInit k 0 0 s.episodeRewards H

/-- **C7 (code bug).** A second INITIALIZE is *not* a full reset: after a
fresh session (built while the shared default list was still empty) stores
one `done=true` transition with reward `5`, re-constructing `CustomPPO`
without an explicit `episode_rewards` argument yields a session whose
episode-reward history is `[5]`, not empty — the mutable-default-argument
list carries the prior history over. -/
theorem C7_reinit_carries_history :
    (reinitSharedDefault (storeTransition (freshPPO 2048 50) 5 true)
        2048 50).episodeRewards = [5] ∧
    (reinitSharedDefault (storeTransition (freshPPO 2048 50) 5 true)
        2048 50).episodeRewards ≠ [] := by
  refine ⟨by decide, by decide⟩

/-! ## JSON payloads

The server delegates payload serialization to Python's `json` module
(external to `src/`, `ensure_ascii=True` defaults): modelled as a canonical
printer/parser pair over a JSON value type.  Numbers are modelled as
integers (the floating-point number grammar is out of scope), strings as
lists of unicode code points, and the printed form is a list of ASCII
bytes: `json.dumps` with default `ensure_ascii=True` emits only ASCII, so
UTF-8 encoding is the identity on the printed bytes. -/

inductive Json where
  | null : Json
  | bool (b : Bool) : Json
  | num (n : Int) : Json
  | str (s : List Nat) : Json
  | arr (xs : List Json) : Json
  | obj (kvs : List (List Nat × Json)) : Json

/-- Decimal digits of `n`, most significant first, as ASCII bytes. -/
def natDigits (n : Nat) : List Nat :=
  if h : n < 10 then [48 + n]
  else natDigits (n / 10) ++ [48 + n % 10]
decreasing_by exact Nat.div_lt_self (by omega) (by omega)

/-- Printed form of a JSON integer. -/
def intDump (n : Int) : List Nat :=
  if n < 0 then 45 :: natDigits n.natAbs else natDigits n.natAbs

/-- Lower-case hex digit for `x < 16`, as an ASCII byte. -/
def hexDig (x : Nat) : Nat :=
  if x < 10 then 48 + x else 87 + x

/-- Escaping of one string character (`ensure_ascii` style): `"` and `\`
get a backslash escape, printable ASCII is emitted verbatim, and every
other code point as a `\uXXXX` escape. -/
def escChar (c : Nat) : List Nat :=
  if c = 34 then [92, 34]
  else if c = 92 then [92, 92]
  else if 32 ≤ c ∧ c ≤ 126 then [c]
  else [92, 117, hexDig (c / 4096 % 16), hexDig (c / 256 % 16),
        hexDig (c / 16 % 16), hexDig (c % 16)]

/-- Escaped body of a JSON string. -/
def escStr (s : List Nat) : List Nat := s.flatMap escChar

mutual

/-- Serialization of a JSON value, following `json.dumps` defaults:
separators `", "` between items/members and `": "` between key and
value. -/
def dumps : Json → List Nat
  | .null => [110, 117, 108, 108]
  | .bool true => [116, 114, 117, 101]
  | .bool false => [102, 97, 108, 115, 101]
  | .num n => intDump n
  | .str s => 34 :: escStr s ++ [34]
  | .arr [] => [91, 93]
  | .arr (x :: xs) => 91 :: dumps x ++ dumpsTail xs ++ [93]
  | .obj [] => [123, 125]
  | .obj (kv :: kvs) => 123 :: dumpsMember kv ++ dumpsMTail kvs ++ [125]

/-- `", item"` continuation of a printed array. -/
def dumpsTail : List Json → List Nat
  | [] => []
  | x :: xs => 44 :: 32 :: dumps x ++ dumpsTail xs

/-- One printed `"key": value` member. -/
def dumpsMember : List Nat × Json → List Nat
  | (k, v) => 34 :: escStr k ++ [34, 58, 32] ++ dumps v

/-- `", member"` continuation of a printed object. -/
def dumpsMTail : List (List Nat × Json) → List Nat
  | [] => []
  | kv :: kvs => 44 :: 32 :: dumpsMember kv ++ dumpsMTail kvs

end

mutual

/-- Well-formed payload values: every string code point is below `0x10000`
(values at or above would be printed as surrogate pairs, outside this
model). -/
def wfJ : Json → Bool
  | .null => true
  | .bool _ => true
  | .num _ => true
  | .str s => s.all (· < 65536)
  | .arr xs => wfL xs
  | .obj kvs => wfM kvs

def wfL : List Json → Bool
  | [] => true
  | x :: xs => wfJ x && wfL xs

def wfM : List (List Nat × Json) → Bool
  | [] => true
  | (k, v) :: kvs => k.all (· < 65536) && wfJ v && wfM kvs

end

mutual

/-- Parser fuel sufficient for a value. -/
def needV : Json → Nat
  | .null => 1
  | .bool _ => 1
  | .num _ => 1
  | .str _ => 1
  | .arr [] => 1
  | .arr (x :: xs) => 1 + needI (x :: xs)
  | .obj [] => 1
  | .obj (kv :: kvs) => 1 + needM (kv :: kvs)

/-- Parser fuel sufficient for the items of a non-empty array. -/
def needI : List Json → Nat
  | [] => 0
  | x :: xs => 1 + needV x + needI xs

/-- Parser fuel sufficient for the members of a non-empty object. -/
def needM : List (List Nat × Json) → Nat
  | [] => 0
  | (_, v) :: kvs => 1 + needV v + needM kvs

end

/-- JSON whitespace bytes. -/
def isWs (c : Nat) : Bool := c = 32 || c = 9 || c = 10 || c = 13

def skipWs (s : List Nat) : List Nat := s.dropWhile isWs

def isDigit (c : Nat) : Bool := 48 ≤ c && c ≤ 57

/-- Value of a hex digit byte (both cases accepted, as `json.loads`
does). -/
def hexVal (c : Nat) : Option Nat :=
  if 48 ≤ c && c ≤ 57 then some (c - 48)
  else if 97 ≤ c && c ≤ 102 then some (c - 87)
  else if 65 ≤ c && c ≤ 70 then some (c - 55)
  else none

/-- Consume a maximal run of decimal digits, accumulating their value. -/
def parseDigitsAux : Nat → List Nat → Nat × List Nat
  | acc, [] => (acc, [])
  | acc, c :: r =>
    if isDigit c then parseDigitsAux (acc * 10 + (c - 48)) r else (acc, c :: r)

/-- Parse a JSON integer (optional minus sign, one or more digits). -/
def parseNum (s : List Nat) : Option (Int × List Nat) :=
  match s with
  | [] => none
  | c :: r =>
    if c = 45 then
      match r with
      | [] => none
      | c2 :: r2 =>
        if isDigit c2 then
          let p := parseDigitsAux (c2 - 48) r2
          some (-(p.1 : Int), p.2)
        else none
    else if isDigit c then
      let p := parseDigitsAux (c - 48) r
      some ((p.1 : Int), p.2)
    else none

/-- Parse the body of a JSON string after the opening quote, decoding
escapes, up to and including the closing quote. -/
def parseStrChars : List Nat → Option (List Nat × List Nat)
  | [] => none
  | c :: r =>
    if c = 34 then some ([], r)
    else if c = 92 then
      match r with
      | [] => none
      | e :: r2 =>
        if e = 34 then (parseStrChars r2).map (fun p => (34 :: p.1, p.2))
        else if e = 92 then (parseStrChars r2).map (fun p => (92 :: p.1, p.2))
        else if e = 47 then (parseStrChars r2).map (fun p => (47 :: p.1, p.2))
        else if e = 98 then (parseStrChars r2).map (fun p => (8 :: p.1, p.2))
        else if e = 102 then (parseStrChars r2).map (fun p => (12 :: p.1, p.2))
        else if e = 110 then (parseStrChars r2).map (fun p => (10 :: p.1, p.2))
        else if e = 114 then (parseStrChars r2).map (fun p => (13 :: p.1, p.2))
        else if e = 116 then (parseStrChars r2).map (fun p => (9 :: p.1, p.2))
        else if e = 117 then
          match r2 with
          | h1 :: h2 :: h3 :: h4 :: r3 =>
            match hexVal h1, hexVal h2, hexVal h3, hexVal h4 with
            | some a, some b, some c3, some d =>
              (parseStrChars r3).map
                (fun p => ((a * 4096 + b * 256 + c3 * 16 + d) :: p.1, p.2))
            | _, _, _, _ => none
          | _ => none
        else none
    else if 32 ≤ c then (parseStrChars r).map (fun p => (c :: p.1, p.2))
    else none

mutual

/-- Fuel-indexed parser for one JSON value (leading whitespace allowed). -/
def parseVal : Nat → List Nat → Option (Json × List Nat)
  | 0, _ => none
  | fuel + 1, s =>
    match skipWs s with
    | [] => none
    | c :: r =>
      if c = 110 then
        match r with
        | 117 :: 108 :: 108 :: r2 => some (.null, r2)
        | _ => none
      else if c = 116 then
        match r with
        | 114 :: 117 :: 101 :: r2 => some (.bool true, r2)
        | _ => none
      else if c = 102 then
        match r with
        | 97 :: 108 :: 115 :: 101 :: r2 => some (.bool false, r2)
        | _ => none
      else if c = 34 then
        (parseStrChars r).map (fun p => (.str p.1, p.2))
      else if c = 91 then
        match skipWs r with
        | [] => none
        | c2 :: r2 =>
          if c2 = 93 then some (.arr [], r2)
          else
            (parseItems fuel (c2 :: r2)).map (fun p => (.arr p.1, p.2))
      else if c = 123 then
        match skipWs r with
        | [] => none
        | c2 :: r2 =>
          if c2 = 125 then some (.obj [], r2)
          else
            (parseMembers fuel (c2 :: r2)).map (fun p => (.obj p.1, p.2))
      else
        (parseNum (c :: r)).map (fun p => (.num p.1, p.2))

/-- Parse `value (, value)* ]` — the items of a non-empty array. -/
def parseItems : Nat → List Nat → Option (List Json × List Nat)
  | 0, _ => none
  | fuel + 1, s =>
    match parseVal fuel s with
    | none => none
    | some (v, r) =>
      match skipWs r with
      | [] => none
      | c :: r2 =>
        if c = 93 then some ([v], r2)
        else if c = 44 then
          (parseItems fuel r2).map (fun p => (v :: p.1, p.2))
        else none

/-- Parse `"key": value (, "key": value)* }` — the members of a non-empty
object. -/
def parseMembers : Nat → List Nat → Option (List (List Nat × Json) × List Nat)
  | 0, _ => none
  | fuel + 1, s =>
    match skipWs s with
    | [] => none
    | c :: r =>
      if c = 34 then
        match parseStrChars r with
        | none => none
        | some (k, r1) =>
          match skipWs r1 with
          | [] => none
          | c2 :: r2 =>
            if c2 = 58 then
              match parseVal fuel r2 with
              | none => none
              | some (v, r3) =>
                match skipWs r3 with
                | [] => none
                | c3 :: r4 =>
                  if c3 = 125 then some ([(k, v)], r4)
                  else if c3 = 44 then
                    (parseMembers fuel r4).map (fun p => ((k, v) :: p.1, p.2))
                  else none
            else none
      else none

end

/-- `json.loads` on a byte string: parse one value, allow trailing
whitespace, reject anything else (`Extra data`). -/
def loads (s : List Nat) : Option Json :=
  match parseVal (s.length + 1) s with
  | some (j, r) => if skipWs r = [] then some j else none
  | none => none

/-- The next byte, if any, is not a decimal digit (so a digit run cannot
leak into it). -/
def noDigitHead : List Nat → Bool
  | [] => true
  | c :: _ => !isDigit c

/-! ### Round-trip lemmas for the JSON model -/

theorem skipWs_cons {c : Nat} (t : List Nat) (h : isWs c = false) :
    skipWs (c :: t) = c :: t := by
  simp [skipWs, List.dropWhile_cons, h]

theorem skipWs_cons32 (t : List Nat) : skipWs (32 :: t) = skipWs t := by
  simp [skipWs, List.dropWhile_cons, isWs]

theorem natDigits_cons (n : Nat) :
    ∃ c t, natDigits n = c :: t ∧ isDigit c = true := by
  induction n using natDigits.induct with
  | case1 n h =>
    refine ⟨48 + n, [], by rw [natDigits]; simp [h], ?_⟩
    simp only [isDigit, Bool.and_eq_true, decide_eq_true_eq]
    omega
  | case2 n h ih =>
    obtain ⟨c, t, hct, hd⟩ := ih
    exact ⟨c, t ++ [48 + n % 10], by rw [natDigits]; simp [h, hct], hd⟩

theorem parseDigitsAux_digit (acc c : Nat) (r : List Nat)
    (h : isDigit c = true) :
    parseDigitsAux acc (c :: r) = parseDigitsAux (acc * 10 + (c - 48)) r := by
  simp [parseDigitsAux, h]

theorem parseDigitsAux_stop (acc : Nat) (rest : List Nat)
    (h : noDigitHead rest = true) :
    parseDigitsAux acc rest = (acc, rest) := by
  cases rest with
  | nil => rfl
  | cons c r =>
    simp only [noDigitHead, Bool.not_eq_true'] at h
    simp [parseDigitsAux, h]

theorem parseDigitsAux_natDigits (n : Nat) :
    ∀ acc rest, parseDigitsAux acc (natDigits n ++ rest) =
      parseDigitsAux (acc * 10 ^ (natDigits n).length + n) rest := by
  induction n using natDigits.induct with
  | case1 n h =>
    intro acc rest
    rw [natDigits]
    simp only [h, dite_true, List.cons_append, List.nil_append,
      List.length_cons, List.length_nil]
    rw [parseDigitsAux_digit]
    · congr 1
      omega
    · simp only [isDigit, Bool.and_eq_true, decide_eq_true_eq]
      omega
  | case2 n h ih =>
    intro acc rest
    rw [natDigits]
    simp only [h, dite_false, List.append_assoc, List.cons_append,
      List.nil_append]
    rw [ih]
    rw [parseDigitsAux_digit]
    · rw [List.length_append, List.length_cons, List.length_nil]
      congr 1
      have hd : n % 10 + 48 - 48 = n % 10 := by omega
      have hmod := Nat.div_add_mod n 10
      rw [pow_succ]
      ring_nf
      omega
    · simp only [isDigit, Bool.and_eq_true, decide_eq_true_eq]
      omega

theorem parseDigitsAux_whole (n : Nat) (rest : List Nat)
    (h : noDigitHead rest = true) :
    parseDigitsAux 0 (natDigits n ++ rest) = (n, rest) := by
  rw [parseDigitsAux_natDigits, Nat.zero_mul, Nat.zero_add,
    parseDigitsAux_stop _ _ h]

theorem parseNum_intDump (n : Int) (rest : List Nat)
    (h : noDigitHead rest = true) :
    parseNum (intDump n ++ rest) = some (n, rest) := by
  obtain ⟨c, t, hct, hd⟩ := natDigits_cons n.natAbs
  have hcb : 48 ≤ c ∧ c ≤ 57 := by
    simpa [isDigit, Bool.and_eq_true, decide_eq_true_eq] using hd
  have hwhole : parseDigitsAux (c - 48) (t ++ rest) = (n.natAbs, rest) := by
    have := parseDigitsAux_whole n.natAbs rest h
    rw [hct] at this
    rw [← this, List.cons_append, parseDigitsAux_digit _ _ _ hd,
      Nat.zero_mul, Nat.zero_add]
  rcases lt_or_le n 0 with hn | hn
  · have h1 : intDump n = 45 :: natDigits n.natAbs := by
      simp [intDump, hn]
    rw [h1, hct]
    simp only [List.cons_append]
    simp [parseNum, hd, hwhole]
    rw [abs_of_neg hn, neg_neg]
  · have h2 : intDump n = natDigits n.natAbs := by
      simp [intDump, not_lt.mpr hn]
    rw [h2, hct]
    have hne : ¬ (c = 45) := by omega
    simp only [List.cons_append]
    simp [parseNum, hne, hd, hwhole]
    try rw [abs_of_nonneg hn]
    try omega

theorem hexVal_hexDig (x : Nat) (h : x < 16) :
    hexVal (hexDig x) = some x := by
  unfold hexDig hexVal
  split_ifs <;> simp_all <;> omega

theorem parseStrChars_escStr (s : List Nat) (rest : List Nat)
    (hwf : s.all (· < 65536) = true) :
    parseStrChars (escStr s ++ (34 :: rest)) = some (s, rest) := by
  induction s with
  | nil =>
    have h0 : escStr [] ++ (34 :: rest) = 34 :: rest := by simp [escStr]
    rw [h0, parseStrChars.eq_def]
    simp
  | cons c cs ih =>
    have hc : c < 65536 ∧ cs.all (· < 65536) = true := by simpa using hwf
    have ihcs := ih hc.2
    have hesc : escStr (c :: cs) = escChar c ++ escStr cs := by
      simp [escStr]
    rw [hesc, List.append_assoc]
    unfold escChar
    split_ifs with h34 h92 hplain
    · subst h34
      rw [List.cons_append, List.cons_append, List.nil_append,
        parseStrChars.eq_def]
      simp [ihcs]
    · subst h92
      rw [List.cons_append, List.cons_append, List.nil_append,
        parseStrChars.eq_def]
      simp [ihcs]
    · rw [List.cons_append, List.nil_append, parseStrChars.eq_def]
      simp [h34, h92, hplain.1, ihcs]
    · have hb1 : c / 4096 % 16 < 16 := Nat.mod_lt _ (by omega)
      have hb2 : c / 256 % 16 < 16 := Nat.mod_lt _ (by omega)
      have hb3 : c / 16 % 16 < 16 := Nat.mod_lt _ (by omega)
      have hb4 : c % 16 < 16 := Nat.mod_lt _ (by omega)
      simp only [List.cons_append, List.nil_append]
      rw [parseStrChars.eq_def]
      simp [hexVal_hexDig _ hb1, hexVal_hexDig _ hb2,
        hexVal_hexDig _ hb3, hexVal_hexDig _ hb4, ihcs]
      omega

theorem needV_pos (j : Json) : 1 ≤ needV j := by
  cases j with
  | null => simp [needV]
  | bool b => simp [needV]
  | num n => simp [needV]
  | str s => simp [needV]
  | arr xs => cases xs <;> simp [needV]
  | obj kvs => cases kvs <;> simp [needV]

theorem dumps_cons (j : Json) :
    ∃ c t, dumps j = c :: t ∧ isWs c = false ∧ c ≠ 93 ∧ c ≠ 125 := by
  cases j with
  | null =>
    exact ⟨110, [117, 108, 108], by simp [dumps], by decide, by decide,
      by decide⟩
  | bool b =>
    cases b with
    | true =>
      exact ⟨116, [114, 117, 101], by simp [dumps], by decide, by decide,
        by decide⟩
    | false =>
      exact ⟨102, [97, 108, 115, 101], by simp [dumps], by decide, by decide,
        by decide⟩
  | num n =>
    by_cases hn : n < 0
    · exact ⟨45, natDigits n.natAbs, by simp [dumps, intDump, hn], by decide,
        by decide, by decide⟩
    · obtain ⟨c, t, hct, hd⟩ := natDigits_cons n.natAbs
      have hcb : 48 ≤ c ∧ c ≤ 57 := by
        simpa [isDigit, Bool.and_eq_true, decide_eq_true_eq] using hd
      refine ⟨c, t, by simp [dumps, intDump, hn, hct], ?_, by omega, by omega⟩
      simp only [isWs, Bool.or_eq_false_iff, decide_eq_false_iff_not]
      omega
  | str s =>
    exact ⟨34, escStr s ++ [34], by simp [dumps], by decide, by decide,
      by decide⟩
  | arr xs =>
    cases xs with
    | nil => exact ⟨91, [93], by simp [dumps], by decide, by decide, by decide⟩
    | cons x xs =>
      exact ⟨91, dumps x ++ dumpsTail xs ++ [93], by simp [dumps], by decide,
        by decide, by decide⟩
  | obj kvs =>
    cases kvs with
    | nil =>
      exact ⟨123, [125], by simp [dumps], by decide, by decide, by decide⟩
    | cons kv kvs =>
      exact ⟨123, dumpsMember kv ++ dumpsMTail kvs ++ [125], by simp [dumps],
        by decide, by decide, by decide⟩

theorem parseVal_ws32 (f : Nat) (s : List Nat) :
    parseVal f (32 :: s) = parseVal f s := by
  cases f with
  | zero => rfl
  | succ f => simp only [parseVal, skipWs_cons32]

theorem parseItems_ws32 (f : Nat) (s : List Nat) :
    parseItems f (32 :: s) = parseItems f s := by
  cases f with
  | zero => rfl
  | succ f => simp only [parseItems, parseVal_ws32]

theorem parseMembers_ws32 (f : Nat) (s : List Nat) :
    parseMembers f (32 :: s) = parseMembers f s := by
  cases f with
  | zero => rfl
  | succ f => simp only [parseMembers, skipWs_cons32]

theorem noDigitHead_tail93 (xs : List Json) (rest : List Nat) :
    noDigitHead (dumpsTail xs ++ (93 :: rest)) = true := by
  cases xs with
  | nil => simp [dumpsTail, noDigitHead, isDigit]
  | cons y ys => simp [dumpsTail, noDigitHead, isDigit]

theorem noDigitHead_mtail125 (kvs : List (List Nat × Json)) (rest : List Nat) :
    noDigitHead (dumpsMTail kvs ++ (125 :: rest)) = true := by
  cases kvs with
  | nil => simp [dumpsMTail, noDigitHead, isDigit]
  | cons kv kvs => simp [dumpsMTail, noDigitHead, isDigit]


theorem parse_dumps_all (fuel : Nat) :
    (∀ j rest, needV j ≤ fuel → wfJ j = true → noDigitHead rest = true →
      parseVal fuel (dumps j ++ rest) = some (j, rest)) ∧
    (∀ x xs rest, needI (x :: xs) ≤ fuel → wfJ x = true → wfL xs = true →
      parseItems fuel (dumps x ++ (dumpsTail xs ++ (93 :: rest))) =
        some (x :: xs, rest)) ∧
    (∀ k v kvs rest, needM ((k, v) :: kvs) ≤ fuel →
      k.all (· < 65536) = true → wfJ v = true → wfM kvs = true →
      parseMembers fuel
          (dumpsMember (k, v) ++ (dumpsMTail kvs ++ (125 :: rest))) =
        some ((k, v) :: kvs, rest)) := by
  induction fuel with
  | zero =>
    refine ⟨fun j rest hn _ _ => ?_, fun x xs rest hn _ _ => ?_,
      fun k v kvs rest hn _ _ _ => ?_⟩
    · exact absurd hn (by have := needV_pos j; omega)
    · simp [needI] at hn
    · simp [needM] at hn
  | succ fuel ih =>
    obtain ⟨ihV, ihI, ihM⟩ := ih
    refine ⟨?_, ?_, ?_⟩
    · intro j rest hfuel hwf hnd
      cases j with
      | null => rfl
      | bool b => cases b <;> rfl
      | str s =>
        have hwfs : s.all (· < 65536) = true := by simpa [wfJ] using hwf
        have hdump : dumps (Json.str s) ++ rest
            = 34 :: (escStr s ++ (34 :: rest)) := by simp [dumps]
        rw [hdump]
        simp only [parseVal]
        rw [skipWs_cons _ (by decide)]
        simp [parseStrChars_escStr s rest hwfs]
      | num n =>
        have hdump : dumps (Json.num n) = intDump n := by simp [dumps]
        have key : ∀ c0 t0, intDump n = c0 :: t0 →
            (c0 = 45 ∨ (48 ≤ c0 ∧ c0 ≤ 57)) →
            parseVal (fuel + 1) (dumps (Json.num n) ++ rest)
              = some (Json.num n, rest) := by
          intro c0 t0 h0 hrange
          have hws : isWs c0 = false := by
            simp only [isWs, Bool.or_eq_false_iff, decide_eq_false_iff_not]
            omega
          rw [hdump, h0, List.cons_append]
          simp only [parseVal]
          rw [skipWs_cons _ hws]
          dsimp only
          rw [if_neg (by omega), if_neg (by omega), if_neg (by omega),
            if_neg (by omega), if_neg (by omega), if_neg (by omega)]
          rw [← List.cons_append, ← h0, parseNum_intDump n rest hnd]
          rfl
        rcases lt_or_le n 0 with hn | hn
        · exact key 45 (natDigits n.natAbs) (by simp [intDump, hn]) (Or.inl rfl)
        · obtain ⟨c, t, hct, hd⟩ := natDigits_cons n.natAbs
          have hcb : 48 ≤ c ∧ c ≤ 57 := by
            simpa [isDigit, Bool.and_eq_true, decide_eq_true_eq] using hd
          exact key c t (by simp [intDump, not_lt.mpr hn, hct]) (Or.inr hcb)
      | arr xs =>
        cases xs with
        | nil => rfl
        | cons x xs =>
          have hwf2 : wfJ x = true ∧ wfL xs = true := by
            simpa [wfJ, wfL, Bool.and_eq_true] using hwf
          have hfuel2 : needI (x :: xs) ≤ fuel := by
            simp only [needV] at hfuel
            omega
          obtain ⟨c0, t0, h0, hws0, h93, _⟩ := dumps_cons x
          have hdump : dumps (Json.arr (x :: xs)) ++ rest
              = 91 :: (dumps x ++ (dumpsTail xs ++ (93 :: rest))) := by
            simp [dumps]
          rw [hdump]
          simp only [parseVal]
          rw [skipWs_cons _ (by decide)]
          dsimp only
          rw [if_neg (by decide), if_neg (by decide), if_neg (by decide),
            if_neg (by decide), if_pos rfl]
          rw [h0, List.cons_append, skipWs_cons _ hws0]
          dsimp only
          rw [if_neg h93]
          rw [← List.cons_append, ← h0,
            ihI x xs rest hfuel2 hwf2.1 hwf2.2]
          rfl
      | obj kvs =>
        cases kvs with
        | nil => rfl
        | cons kv kvs =>
          obtain ⟨k, v⟩ := kv
          have hwf2 : k.all (· < 65536) = true ∧ wfJ v = true
              ∧ wfM kvs = true := by
            simpa [wfJ, wfM, Bool.and_eq_true, and_assoc] using hwf
          have hfuel2 : needM ((k, v) :: kvs) ≤ fuel := by
            simp only [needV] at hfuel
            omega
          obtain ⟨c0, t0, h0, hws0, _, h125⟩ := dumps_cons (Json.obj [])
          -- head of dumpsMember (k, v) is 34
          have hdump : dumps (Json.obj ((k, v) :: kvs)) ++ rest
              = 123 :: (dumpsMember (k, v) ++ (dumpsMTail kvs
                  ++ (125 :: rest))) := by
            simp [dumps]
          rw [hdump]
          simp only [parseVal]
          rw [skipWs_cons _ (by decide)]
          dsimp only
          rw [if_neg (by decide), if_neg (by decide), if_neg (by decide),
            if_neg (by decide), if_neg (by decide), if_pos rfl]
          have hmem : dumpsMember (k, v) ++ (dumpsMTail kvs ++ (125 :: rest))
              = 34 :: (escStr k ++ ([34, 58, 32] ++ (dumps v
                  ++ (dumpsMTail kvs ++ (125 :: rest))))) := by
            simp [dumpsMember]
          rw [hmem, skipWs_cons _ (by decide)]
          dsimp only
          rw [if_neg (by decide)]
          rw [← hmem, ihM k v kvs rest hfuel2 hwf2.1 hwf2.2.1 hwf2.2.2]
          rfl
    · intro x xs rest hfuel hwfx hwfxs
      have hfx : needV x ≤ fuel := by
        simp only [needI] at hfuel
        omega
      have hx := ihV x (dumpsTail xs ++ (93 :: rest)) hfx hwfx
        (noDigitHead_tail93 xs rest)
      simp only [parseItems]
      rw [hx]
      dsimp only
      cases xs with
      | nil =>
        have h1 : dumpsTail ([] : List Json) ++ (93 :: rest)
            = 93 :: rest := by simp [dumpsTail]
        rw [h1, skipWs_cons _ (by decide)]
        dsimp only
        rw [if_pos rfl]
      | cons y ys =>
        have hwf2 : wfJ y = true ∧ wfL ys = true := by
          simpa [wfL, Bool.and_eq_true] using hwfxs
        have hfuel2 : needI (y :: ys) ≤ fuel := by
          simp only [needI] at hfuel ⊢
          omega
        have h1 : dumpsTail (y :: ys) ++ (93 :: rest)
            = 44 :: 32 :: (dumps y ++ (dumpsTail ys ++ (93 :: rest))) := by
          simp [dumpsTail]
        rw [h1, skipWs_cons _ (by decide)]
        dsimp only
        rw [if_neg (by decide), if_pos rfl]
        rw [parseItems_ws32, ihI y ys rest hfuel2 hwf2.1 hwf2.2]
        rfl
    · intro k v kvs rest hfuel hwfk hwfv hwfkvs
      have hfv : needV v ≤ fuel := by
        simp only [needM] at hfuel
        omega
      have hmem : dumpsMember (k, v) ++ (dumpsMTail kvs ++ (125 :: rest))
          = 34 :: (escStr k ++ (34 :: (58 :: 32 :: (dumps v
              ++ (dumpsMTail kvs ++ (125 :: rest)))))) := by
        simp [dumpsMember]
      rw [hmem]
      simp only [parseMembers]
      rw [skipWs_cons _ (by decide)]
      dsimp only
      rw [if_pos rfl]
      rw [parseStrChars_escStr k _ hwfk]
      dsimp only
      rw [skipWs_cons _ (by decide)]
      dsimp only
      rw [if_pos rfl]
      rw [parseVal_ws32,
        ihV v (dumpsMTail kvs ++ (125 :: rest)) hfv hwfv
          (noDigitHead_mtail125 kvs rest)]
      dsimp only
      cases kvs with
      | nil =>
        have h1 : dumpsMTail ([] : List (List Nat × Json)) ++ (125 :: rest)
            = 125 :: rest := by simp [dumpsMTail]
        rw [h1, skipWs_cons _ (by decide)]
        dsimp only
        rw [if_pos rfl]
      | cons kv2 kvs2 =>
        obtain ⟨k2, v2⟩ := kv2
        have hwf2 : k2.all (· < 65536) = true ∧ wfJ v2 = true
            ∧ wfM kvs2 = true := by
          simpa [wfM, Bool.and_eq_true, and_assoc] using hwfkvs
        have hfuel2 : needM ((k2, v2) :: kvs2) ≤ fuel := by
          simp only [needM] at hfuel ⊢
          omega
        have h1 : dumpsMTail ((k2, v2) :: kvs2) ++ (125 :: rest)
            = 44 :: 32 :: (dumpsMember (k2, v2)
                ++ (dumpsMTail kvs2 ++ (125 :: rest))) := by
          simp [dumpsMTail]
        rw [h1, skipWs_cons _ (by decide)]
        dsimp only
        rw [if_neg (by decide), if_pos rfl]
        rw [parseMembers_ws32,
          ihM k2 v2 kvs2 rest hfuel2 hwf2.1 hwf2.2.1 hwf2.2.2]
        rfl



mutual

theorem needV_le (j : Json) : needV j ≤ (dumps j).length + 1 := by
  cases j with
  | null => simp [needV, dumps]
  | bool b => cases b <;> simp [needV, dumps]
  | num n => simp [needV, dumps]
  | str s => simp [needV, dumps]
  | arr xs =>
    cases xs with
    | nil => simp [needV, dumps]
    | cons x xs =>
      have h := needI_le (x :: xs)
      simp only [needI, dumpsTail, List.length_cons, List.length_append,
        List.length_nil] at h
      simp only [needV, dumps, needI, List.length_cons, List.length_append,
        List.length_nil]
      omega
  | obj kvs =>
    cases kvs with
    | nil => simp [needV, dumps]
    | cons kv kvs =>
      obtain ⟨k, v⟩ := kv
      have h := needM_le ((k, v) :: kvs)
      simp only [needM, dumpsMTail, dumpsMember, List.length_cons,
        List.length_append, List.length_nil] at h
      simp only [needV, dumps, needM, dumpsMember, List.length_cons,
        List.length_append, List.length_nil]
      omega

theorem needI_le (xs : List Json) : needI xs ≤ (dumpsTail xs).length := by
  cases xs with
  | nil => simp [needI, dumpsTail]
  | cons x xs =>
    have h1 := needV_le x
    have h2 := needI_le xs
    simp only [needI, dumpsTail, List.length_cons, List.length_append]
    omega

theorem needM_le (kvs : List (List Nat × Json)) :
    needM kvs ≤ (dumpsMTail kvs).length := by
  cases kvs with
  | nil => simp [needM, dumpsMTail]
  | cons kv kvs =>
    obtain ⟨k, v⟩ := kv
    have h1 := needV_le v
    have h2 := needM_le kvs
    simp only [needM, dumpsMTail, dumpsMember, List.length_cons,
      List.length_append]
    omega

end

/-- `json.loads` inverts `json.dumps` on every well-formed payload. -/
theorem loads_dumps (j : Json) (hwf : wfJ j = true) :
    loads (dumps j) = some j := by
  unfold loads
  have h := (parse_dumps_all ((dumps j).length + 1)).1 j []
    (by have := needV_le j; omega) hwf rfl
  rw [List.append_nil] at h
  rw [h]
  simp [skipWs]

/-! ## Wire protocol and connection handler (`socket_server_async.py`)

`rl_core` (imported by the server for `initialize_model`, `get_action` and
`store_transition`) is code of this repository that is not under `src/`;
those three functions are modelled from the spec below and marked as such.
Everything else in this section is translated from
`socket_server_async.py`. -/

/-- The `MessageType` enumeration (tags 0, 1, 2, 10, 11, 12, 255). -/
inductive MessageType where
  | mInit : MessageType
  | mGetAction : MessageType
  | mStoreTransition : MessageType
  | mInitResponse : MessageType
  | mActionResponse : MessageType
  | mTransitionAck : MessageType
  | mError : MessageType
deriving Repr, DecidableEq

/-- Numeric tag byte of each message type. -/
def MessageType.tag : MessageType → Nat
  | .mInit => 0
  | .mGetAction => 1
  | .mStoreTransition => 2
  | .mInitResponse => 10
  | .mActionResponse => 11
  | .mTransitionAck => 12
  | .mError => 255

/-- `MessageType(byte)`: `None` models the `ValueError` Python raises on a
byte outside the enumeration. -/
def msgTypeOfByte (b : Nat) : Option MessageType :=
  if b = 0 then some .mInit
  else if b = 1 then some .mGetAction
  else if b = 2 then some .mStoreTransition
  else if b = 10 then some .mInitResponse
  else if b = 11 then some .mActionResponse
  else if b = 12 then some .mTransitionAck
  else if b = 255 then some .mError
  else none

/-- `struct.unpack` of a 4-byte big-endian unsigned int. -/
def be32Val (b0 b1 b2 b3 : Nat) : Nat :=
  ((b0 * 256 + b1) * 256 + b2) * 256 + b3

/-- `struct.pack` of a 4-byte big-endian unsigned int. -/
def be32Bytes (n : Nat) : List Nat :=
  [n / 16777216 % 256, n / 65536 % 256, n / 256 % 256, n % 256]

/-- `send_message` (lines 96–103): 4-byte big-endian length
`1 + len(payload_bytes)`, the tag byte, then the JSON payload bytes. -/
def encodeMessage (t : MessageType) (p : Json) : List Nat :=
  be32Bytes (1 + (dumps p).length) ++ t.tag :: dumps p

/-- The ways `receive_message` can raise instead of returning:
`asyncio.IncompleteReadError` from any `readexactly`, `ValueError` from
`MessageType(...)`, `json.JSONDecodeError` from `json.loads`.  All three
propagate out of `handle_client`'s `while` loop. -/
inductive RecvError where
  | incompleteRead : RecvError
  | unknownTag : RecvError
  | malformedPayload : RecvError
deriving Repr, DecidableEq

/-- `receive_message` (lines 78–94) applied to the remaining client byte
stream: read exactly 4 length bytes, exactly 1 tag byte, then exactly
`length - 1` payload bytes parsed as JSON (payload `{}` when
`length - 1 ≤ 0`). -/
def receiveMessage (s : List Nat) :
    Except RecvError ((MessageType × Json) × List Nat) :=
  match s with
  | b0 :: b1 :: b2 :: b3 :: tagByte :: s2 =>
    match msgTypeOfByte tagByte with
    | none => .error .unknownTag
    | some t =>
      if 0 < be32Val b0 b1 b2 b3 - 1 then
        if be32Val b0 b1 b2 b3 - 1 ≤ s2.length then
          match loads (s2.take (be32Val b0 b1 b2 b3 - 1)) with
          | none => .error .malformedPayload
          | some p => .ok ((t, p), s2.drop (be32Val b0 b1 b2 b3 - 1))
        else .error .incompleteRead
      else .ok ((t, Json.obj []), s2)
  | _ => .error .incompleteRead

/-- ASCII bytes of the payload key `boss_name`. -/
def kBossName : List Nat := [98, 111, 115, 115, 95, 110, 97, 109, 101]

/-- ASCII bytes of the payload key `observation_size`. -/
def kObservationSize : List Nat := [111, 98, 115, 101, 114, 118, 97, 116, 105, 111, 110, 95, 115, 105, 122, 101]

/-- ASCII bytes of the payload key `state`. -/
def kState : List Nat := [115, 116, 97, 116, 101]

/-- ASCII bytes of the payload key `action`. -/
def kAction : List Nat := [97, 99, 116, 105, 111, 110]

/-- ASCII bytes of the payload key `reward`. -/
def kReward : List Nat := [114, 101, 119, 97, 114, 100]

/-- ASCII bytes of the payload key `next_state`. -/
def kNextState : List Nat := [110, 101, 120, 116, 95, 115, 116, 97, 116, 101]

/-- ASCII bytes of the payload key `done`. -/
def kDone : List Nat := [100, 111, 110, 101]

/-- ASCII bytes of the payload key `success`. -/
def kSuccess : List Nat := [115, 117, 99, 99, 101, 115, 115]

/-- ASCII bytes of the payload key `error`. -/
def kErr : List Nat := [101, 114, 114, 111, 114]

/-- ASCII bytes of the payload key `initialized`. -/
def kInitialized : List Nat := [105, 110, 105, 116, 105, 97, 108, 105, 122, 101, 100]

/-- ASCII bytes of the payload key `checkpoint_loaded`. -/
def kCheckpointLoaded : List Nat := [99, 104, 101, 99, 107, 112, 111, 105, 110, 116, 95, 108, 111, 97, 100, 101, 100]

/-- Process-wide server state: the single `model` global of `rl_core`
(`None` until the first INITIALIZE). -/
structure ServerState where
  model : Option PPOState

def emptyServer : ServerState := ⟨none⟩

/-- Python `payload[key]` on a decoded JSON value: `KeyError` on a missing
key, `TypeError` when the payload is not a dict; dict semantics give the
last binding of a duplicated key. -/
def jlookup (kvs : List (List Nat × Json)) (key : List Nat) : Option Json :=
  kvs.foldl (fun acc kv => if kv.1 = key then some kv.2 else acc) none

def jsonGet (p : Json) (key : List Nat) : Except String Json :=
  match p with
  | .obj kvs =>
    match jlookup kvs key with
    | some v => .ok v
    | none => .error "KeyError"
  | _ => .error "TypeError: payload is not a dict"

/-- `handle_initialize` (lines 118–148) composed with
`rl_core.initialize_model`.  Modelled from the spec: `initialize_model` is
not under `src/`; per the spec it validates that the declared sizes are
positive, re-creates the Session (a fresh `CustomPPO`, horizon and
checkpoint interval from configuration — PPO default `n_steps=2048`,
`save_freq=50`), and reports whether a checkpoint was loaded (no
filesystem in the model: `false`).  The handler reads `boss_name` and
`observation_size` from the payload (raising `KeyError` when missing) and
sends INIT_RESPONSE. -/
def handleInit (st : ServerState) (p : Json) :
    Except String (ServerState × List (MessageType × Json)) := do
  let bossName ← jsonGet p kBossName
  let obsSize ← jsonGet p kObservationSize
  match obsSize with
  | .num n =>
    if 0 < n then
      .ok ({ model := some (freshPPO 2048 50) },
        [(MessageType.mInitResponse,
          Json.obj [(kInitialized, Json.bool true), (kBossName, bossName),
            (kObservationSize, Json.num n),
            (kCheckpointLoaded, Json.bool false)])])
    else .error "Invalid observation size"
  | _ => .error "Invalid observation size"

/-- `handle_get_action` (lines 150–154) composed with
`rl_core.get_action`.  Modelled from the spec: `get_action` is not under
`src/`; it fails with a session-state error before INITIALIZE and
otherwise forwards to the policy engine's `act` (external; modelled as the
abstract action `0`), which the handler returns verbatim in
ACTION_RESPONSE. -/
def handleGetAction (st : ServerState) (p : Json) :
    Except String (ServerState × List (MessageType × Json)) := do
  let _state ← jsonGet p kState
  match st.model with
  | none => .error "Model not initialized"
  | some _ =>
    .ok (st, [(MessageType.mActionResponse, Json.obj [(kAction, Json.num 0)])])

/-- `handle_store_transition` (lines 156–164) composed with
`rl_core.store_transition`.  Modelled from the spec: `rl_core`'s wrapper is
not under `src/`; it fails with a session-state error before INITIALIZE
and otherwise calls `CustomPPO.store_transition` (under `src/`, modelled
above) and acknowledges with TRANSITION_ACK.  The handler reads the five
payload keys (raising `KeyError` when one is missing); the model requires
`reward` to be a number and `done` a boolean as the protocol
prescribes. -/
def handleStoreTransitionMsg (st : ServerState) (p : Json) :
    Except String (ServerState × List (MessageType × Json)) := do
  let _state ← jsonGet p kState
  let _action ← jsonGet p kAction
  let reward ← jsonGet p kReward
  let _next ← jsonGet p kNextState
  let done ← jsonGet p kDone
  match st.model with
  | none => .error "Model not initialized"
  | some m =>
    match reward, done with
    | .num r, .bool d =>
      .ok ({ model := some (storeTransition m r d) },
        [(MessageType.mTransitionAck, Json.obj [(kSuccess, Json.bool true)])])
    | _, _ => .error "Invalid transition payload"

/-- The dispatch structure of `process_message` (lines 105–116): the three
client-to-server types have handlers; any other successfully decoded type
matches no branch and falls through with no action. -/
def dispatch (st : ServerState) (t : MessageType) (p : Json) :
    Except String (ServerState × List (MessageType × Json)) :=
  match t with
  | .mInit => handleInit st p
  | .mGetAction => handleGetAction st p
  | .mStoreTransition => handleStoreTransitionMsg st p
  | .mInitResponse => .ok (st, [])
  | .mActionResponse => .ok (st, [])
  | .mTransitionAck => .ok (st, [])
  | .mError => .ok (st, [])

/-- Unicode code points of an exception message string. -/
def strBytes (e : String) : List Nat := e.data.map Char.toNat

/-- The ERROR frame `process_message` sends from its `except` clause. -/
def errorResponse (e : String) : MessageType × Json :=
  (MessageType.mError, Json.obj [(kErr, Json.str (strBytes e))])

/-- `process_message`'s `try`/`except`: any exception from a handler
becomes an ERROR response carrying `str(e)`; the server state is whatever
the handler left behind (in this model, handlers fail before mutating). -/
def processMessage (st : ServerState) (t : MessageType) (p : Json) :
    ServerState × List (MessageType × Json) :=
  match dispatch st t p with
  | .ok r => r
  | .error e => (st, [errorResponse e])

theorem receiveMessage_rest_lt (s : List Nat) (m : MessageType × Json)
    (rest : List Nat) (h : receiveMessage s = .ok (m, rest)) :
    rest.length < s.length := by
  unfold receiveMessage at h
  split at h
  · rename_i b0 b1 b2 b3 tagByte s2
    split at h
    · exact Except.noConfusion h
    · split_ifs at h with h1 h2 <;>
        first
          | exact Except.noConfusion h
          | (simp only [Except.ok.injEq, Prod.mk.injEq] at h
             obtain ⟨h3, h4⟩ := h
             subst h4
             simp only [List.length_cons]
             omega)
          | (split at h <;>
              first
                | exact Except.noConfusion h
                | (simp only [Except.ok.injEq, Prod.mk.injEq] at h
                   obtain ⟨h3, h4⟩ := h
                   subst h4
                   simp only [List.length_drop, List.length_cons]
                   omega))
  · exact Except.noConfusion h

/-- `handle_client` (lines 51–76): decode one message, process it, send the
responses, repeat; any exception escaping `receive_message`
(incomplete read, unknown tag, malformed JSON) leaves the loop, after
which the connection is closed having sent nothing further.  The value is
the list of response frames sent over the connection's lifetime. -/
def handleClient (st : ServerState) (stream : List Nat) :
    List (MessageType × Json) :=
  match h : receiveMessage stream with
  | .error _ => []
  | .ok (m, rest) =>
    (processMessage st m.1 m.2).2 ++
      handleClient (processMessage st m.1 m.2).1 rest
termination_by stream.length
decreasing_by exact receiveMessage_rest_lt stream m rest h

theorem handleClient_error (st : ServerState) (stream : List Nat)
    (e : RecvError) (h : receiveMessage stream = .error e) :
    handleClient st stream = [] := by
  rw [handleClient, h]

theorem handleClient_ok (st : ServerState) (stream : List Nat)
    (t : MessageType) (p : Json) (rest : List Nat)
    (h : receiveMessage stream = .ok ((t, p), rest)) :
    handleClient st stream =
      (processMessage st t p).2 ++
        handleClient (processMessage st t p).1 rest := by
  rw [handleClient, h]

theorem msgTypeOfByte_tag (t : MessageType) :
    msgTypeOfByte t.tag = some t := by
  cases t <;> rfl

theorem dumps_length_pos (p : Json) : 0 < (dumps p).length := by
  obtain ⟨c, t0, h, _, _, _⟩ := dumps_cons p
  simp [h]

/-- Decoding inverts encoding: `receive_message` on
`send_message(t, p)`-framed bytes yields `(t, p)` and consumes exactly the
frame. -/
theorem receiveMessage_encode (t : MessageType) (p : Json) (rest : List Nat)
    (hwf : wfJ p = true) (hlen : 1 + (dumps p).length < 4294967296) :
    receiveMessage (encodeMessage t p ++ rest) = .ok ((t, p), rest) := by
  have hval : be32Val ((1 + (dumps p).length) / 16777216 % 256)
      ((1 + (dumps p).length) / 65536 % 256)
      ((1 + (dumps p).length) / 256 % 256)
      ((1 + (dumps p).length) % 256) = 1 + (dumps p).length := by
    unfold be32Val
    omega
  have hshape : encodeMessage t p ++ rest
      = ((1 + (dumps p).length) / 16777216 % 256)
        :: ((1 + (dumps p).length) / 65536 % 256)
        :: ((1 + (dumps p).length) / 256 % 256)
        :: ((1 + (dumps p).length) % 256)
        :: t.tag :: (dumps p ++ rest) := by
    simp [encodeMessage, be32Bytes]
  rw [hshape]
  unfold receiveMessage
  dsimp only
  rw [msgTypeOfByte_tag]
  dsimp only
  rw [hval]
  have hsub : 1 + (dumps p).length - 1 = (dumps p).length := by omega
  rw [hsub, if_pos (dumps_length_pos p),
    if_pos (by simp : (dumps p).length ≤ (dumps p ++ rest).length),
    List.take_left, List.drop_left, loads_dumps p hwf]

/-! ### Claim theorems for the codec and connection handler -/

/-- **C4.** Decoding inverts encoding for every message type and every
well-formed JSON payload whose frame fits the 4-byte length field:
`receive_message` on the bytes of `send_message(t, p)` yields exactly
`(t, p)` and leaves exactly the following bytes unread. -/
theorem C4_codec_roundtrip (t : MessageType) (p : Json) (rest : List Nat)
    (hwf : wfJ p = true) (hlen : 1 + (dumps p).length < 4294967296) :
    receiveMessage (encodeMessage t p ++ rest) = .ok ((t, p), rest) :=
  receiveMessage_encode t p rest hwf hlen

theorem C4_codec_roundtrip_witness :
    wfJ (Json.obj [(kDone, Json.bool true)]) = true ∧
    1 + (dumps (Json.obj [(kDone, Json.bool true)])).length < 4294967296 ∧
    receiveMessage
        (encodeMessage .mStoreTransition (Json.obj [(kDone, Json.bool true)])
          ++ [9]) =
      .ok ((.mStoreTransition, Json.obj [(kDone, Json.bool true)]), [9]) :=
  ⟨by simp [wfJ, wfM, kDone],
   by simp [dumps, dumpsMember, dumpsMTail, escStr, escChar, kDone],
   C4_codec_roundtrip .mStoreTransition (Json.obj [(kDone, Json.bool true)])
     [9] (by simp [wfJ, wfM, kDone])
     (by simp [dumps, dumpsMember, dumpsMTail, escStr, escChar, kDone])⟩

/-- **C3 (counterexample).** A frame with the unknown tag byte `5`, and a
STORE_TRANSITION frame whose 2-byte payload `xy` is malformed JSON — each
followed by a well-formed INITIALIZE frame (`{boss_name: hk,
observation_size: 3}`).  In both runs the handler sends nothing at all: no
ERROR response, and the following INITIALIZE is never processed — the
decode error terminates the handler loop instead of being reported. -/
theorem C3_decode_error_counterexample :
    handleClient emptyServer
        ([0, 0, 0, 1, 5] ++
          [0, 0, 0, 43, 0, 123, 34, 98, 111, 115, 115, 95, 110, 97, 109,
            101, 34, 58, 32, 34, 104, 107, 34, 44, 32, 34, 111, 98, 115,
            101, 114, 118, 97, 116, 105, 111, 110, 95, 115, 105, 122, 101,
            34, 58, 32, 51, 125]) = [] ∧
    handleClient emptyServer
        ([0, 0, 0, 3, 2, 120, 121] ++
          [0, 0, 0, 43, 0, 123, 34, 98, 111, 115, 115, 95, 110, 97, 109,
            101, 34, 58, 32, 34, 104, 107, 34, 44, 32, 34, 111, 98, 115,
            101, 114, 118, 97, 116, 105, 111, 110, 95, 115, 105, 122, 101,
            34, 58, 32, 51, 125]) = [] :=
  ⟨handleClient_error _ _ .unknownTag rfl,
   handleClient_error _ _ .malformedPayload rfl⟩

/-- **C3 (amended).** When `receive_message` fails to decode a frame —
unknown tag byte, malformed JSON payload, or an incomplete read — the
exception propagates out of `handle_client`'s loop: the handler sends no
response at all (no ERROR, no acknowledgement), stops reading, and the
connection is closed. -/
theorem C3_decode_error_closes (st : ServerState) (stream : List Nat)
    (e : RecvError) (h : receiveMessage stream = .error e) :
    handleClient st stream = [] :=
  handleClient_error st stream e h

theorem C3_decode_error_closes_witness :
    receiveMessage [0, 0, 0, 1, 7] = .error .unknownTag ∧
    handleClient emptyServer [0, 0, 0, 1, 7] = [] :=
  ⟨rfl, C3_decode_error_closes emptyServer [0, 0, 0, 1, 7] .unknownTag rfl⟩

/-- **C8.** When a dispatched handler raises on a decoded message, the
handler sends exactly one ERROR response carrying the exception's message
string, keeps the connection open, and proceeds to the next message with
the server state unchanged. -/
theorem C8_handler_error_to_response (st : ServerState) (t : MessageType)
    (p : Json) (e : String) (rest : List Nat)
    (hd : dispatch st t p = .error e)
    (hwf : wfJ p = true) (hlen : 1 + (dumps p).length < 4294967296) :
    handleClient st (encodeMessage t p ++ rest)
      = errorResponse e :: handleClient st rest := by
  have hpm : processMessage st t p = (st, [errorResponse e]) := by
    unfold processMessage
    rw [hd]
  rw [handleClient_ok st _ t p rest (receiveMessage_encode t p rest hwf hlen),
    hpm]
  rfl

theorem C8_handler_error_to_response_witness :
    dispatch emptyServer .mGetAction (Json.obj [(kState, Json.arr [])])
      = .error "Model not initialized" ∧
    handleClient emptyServer
        (encodeMessage .mGetAction (Json.obj [(kState, Json.arr [])])
          ++ encodeMessage .mInit
            (Json.obj [(kBossName, Json.str [104, 107]),
              (kObservationSize, Json.num 3)]))
      = errorResponse "Model not initialized"
        :: handleClient emptyServer
          (encodeMessage .mInit
            (Json.obj [(kBossName, Json.str [104, 107]),
              (kObservationSize, Json.num 3)])) ∧
    handleClient emptyServer
        (encodeMessage .mInit
          (Json.obj [(kBossName, Json.str [104, 107]),
            (kObservationSize, Json.num 3)]))
      = [(MessageType.mInitResponse,
          Json.obj [(kInitialized, Json.bool true),
            (kBossName, Json.str [104, 107]),
            (kObservationSize, Json.num 3),
            (kCheckpointLoaded, Json.bool false)])] := by
  refine ⟨rfl, ?_, ?_⟩
  · exact C8_handler_error_to_response emptyServer .mGetAction
      (Json.obj [(kState, Json.arr [])]) "Model not initialized" _ rfl
      (by simp [wfJ, wfM, wfL, kState])
      (by simp [dumps, dumpsMember, dumpsMTail, dumpsTail, escStr, escChar,
        kState])
  · rw [handleClient_ok emptyServer _ .mInit
      (Json.obj [(kBossName, Json.str [104, 107]),
        (kObservationSize, Json.num 3)]) []
      (by
        have h := receiveMessage_encode .mInit
          (Json.obj [(kBossName, Json.str [104, 107]),
            (kObservationSize, Json.num 3)]) []
          (by simp [wfJ, wfM, kBossName, kObservationSize])
          (by simp [dumps, dumpsMember, dumpsMTail, escStr, escChar,
            intDump, natDigits, kBossName, kObservationSize])
        simpa using h)]
    rw [handleClient_error
      (processMessage emptyServer .mInit
        (Json.obj [(kBossName, Json.str [104, 107]),
          (kObservationSize, Json.num 3)])).1
      [] RecvError.incompleteRead rfl]
    rfl

/-- **C9.** A successfully decoded message bearing one of the
server-to-client tags (INIT_RESPONSE, ACTION_RESPONSE, TRANSITION_ACK,
ERROR) is silently ignored: `process_message` has no branch for it, so no
handler runs, the state is unchanged, no response is sent, and the handler
loop continues with the next message. -/
theorem C9_server_tags_ignored (st : ServerState) (t : MessageType)
    (p : Json) (rest : List Nat)
    (ht : t = .mInitResponse ∨ t = .mActionResponse ∨ t = .mTransitionAck ∨
      t = .mError)
    (hwf : wfJ p = true) (hlen : 1 + (dumps p).length < 4294967296) :
    processMessage st t p = (st, []) ∧
    handleClient st (encodeMessage t p ++ rest) = handleClient st rest := by
  have hpm : processMessage st t p = (st, []) := by
    rcases ht with rfl | rfl | rfl | rfl <;> rfl
  refine ⟨hpm, ?_⟩
  rw [handleClient_ok st _ t p rest (receiveMessage_encode t p rest hwf hlen),
    hpm]
  simp

theorem C9_server_tags_ignored_witness :
    ((MessageType.mError = MessageType.mInitResponse ∨
      MessageType.mError = MessageType.mActionResponse ∨
      MessageType.mError = MessageType.mTransitionAck ∨
      MessageType.mError = MessageType.mError) ∧
    processMessage emptyServer .mError (Json.obj []) = (emptyServer, []) ∧
    handleClient emptyServer
        (encodeMessage .mError (Json.obj []) ++ [0, 0, 0, 1, 7])
      = handleClient emptyServer [0, 0, 0, 1, 7]) :=
  ⟨Or.inr (Or.inr (Or.inr rfl)),
   C9_server_tags_ignored emptyServer .mError (Json.obj []) [0, 0, 0, 1, 7]
     (Or.inr (Or.inr (Or.inr rfl))) rfl (by simp [dumps])⟩

end SilksongRL
